import Mathlib

/-!
Verification of the CSV-merging utility `merge_files.py`.

The program is embedded shallowly: a pandas `DataFrame` of string-typed
cells becomes a `DataFrame` structure below (an ordered list of column
names plus rows of optional string cells, `none` standing for a
blank/NaN cell).  File parsing and serialisation are external
capabilities; the functions below receive already-parsed tables and
mirror, function by function, the Python source:
`read_csv_file`, `filter_projects`, `drop_identifying_columns`,
`add_helper_columns`, `apply_column_mode`, `drop_duplicate_rows`,
`merge_csvs`, `exclude_output_file`.

A Python call that raises an uncaught exception (indexing an empty
list, `pd.concat` of an empty list) is modelled by an `Option` result
being `none` at the corresponding spot.
-/

namespace MergeFiles

/-- A cell of a table: `none` models a pandas NaN / blank value
(all data is read with `dtype=str`, so present cells are strings). -/
abbrev Cell := Option String

/-- A row, positionally aligned with the table's column list. -/
abbrev Row := List Cell

/-- A pandas DataFrame of string cells: ordered column names plus
ordered rows. -/
structure DataFrame where
  cols : List String
  rows : List Row
deriving Repr, DecidableEq

/-- Well-formedness of a table: column names are distinct and every row
has exactly one cell per column (what `pd.read_csv` produces). -/
def DataFrame.WF (df : DataFrame) : Prop :=
  df.cols.Nodup ∧ ∀ r ∈ df.rows, r.length = df.cols.length

/-- Index of a column name in a column list (first occurrence),
modelling pandas label lookup. -/
def colIdx (cols : List String) (c : String) : Option Nat :=
  match cols with
  | [] => none
  | a :: rest => if a = c then some 0 else (colIdx rest c).map (· + 1)

/-- Value of column `c` in a row: the cell at the column's position,
`none` when the column is absent (pandas yields NaN on reindexing). -/
def getCell (cols : List String) (r : Row) (c : String) : Cell :=
  match colIdx cols c with
  | some i => (r.get? i).getD none
  | none => none

/-- Overwrite column `name` when present, otherwise append it at the
end, with the given per-row values: the semantics of the pandas
assignment `df[name] = vals`. -/
def setColumn (df : DataFrame) (name : String) (vals : List Cell) : DataFrame :=
  match colIdx df.cols name with
  | some i => ⟨df.cols, (df.rows.zip vals).map (fun p => p.1.set i p.2)⟩
  | none => ⟨df.cols ++ [name], (df.rows.zip vals).map (fun p => p.1 ++ [p.2])⟩

/-- `pd.Series.isin`: membership of a cell's value in a set of strings;
a NaN cell is never a member. -/
def isinCell (s : List String) (v : Cell) : Bool :=
  match v with
  | some x => s.contains x
  | none => false

/-- Source lines 237-263, `filter_projects`: filter rows using the
`project_name` column; no-op when both sets are empty or when the
column is missing; the only-set takes precedence over the exclude-set. -/
def filter_projects (df : DataFrame) (only_projects exclude_projects : List String) :
    DataFrame :=
  if only_projects.isEmpty && exclude_projects.isEmpty then df
  else if !(df.cols.contains "project_name") then df
  else if !only_projects.isEmpty then
    ⟨df.cols, df.rows.filter (fun r => isinCell only_projects (getCell df.cols r "project_name"))⟩
  else
    ⟨df.cols, df.rows.filter (fun r => !isinCell exclude_projects (getCell df.cols r "project_name"))⟩

/-- Source line 229: the identifying columns, currently just
`project_name`. -/
def identifying_columns : List String := ["project_name"]

/-- Source lines 218-233, `drop_identifying_columns`: drop the
identifying columns when present, otherwise return the table
unchanged. -/
def drop_identifying_columns (df : DataFrame) : DataFrame :=
  let to_drop := df.cols.filter (fun c => identifying_columns.contains c)
  if to_drop.isEmpty then df
  else
    ⟨df.cols.filter (fun c => !identifying_columns.contains c),
     df.rows.map (fun r =>
       ((df.cols.zip r).filter (fun p => !identifying_columns.contains p.1)).map Prod.snd)⟩

/-- English month names, as produced by `strftime("%B")` in the C
locale, indexed 1 to 12. -/
def monthName (m : Nat) : String :=
  match m with
  | 1 => "January"
  | 2 => "February"
  | 3 => "March"
  | 4 => "April"
  | 5 => "May"
  | 6 => "June"
  | 7 => "July"
  | 8 => "August"
  | 9 => "September"
  | 10 => "October"
  | 11 => "November"
  | 12 => "December"
  | _ => ""

/-- Left-pad a number with zeros to two digits (`strftime("%m")`). -/
def pad2 (n : Nat) : String :=
  if n < 10 then "0" ++ toString n else toString n

/-- Left-pad a number with zeros to four digits (`strftime("%Y")`). -/
def pad4 (n : Nat) : String :=
  if n < 10 then "000" ++ toString n
  else if n < 100 then "00" ++ toString n
  else if n < 1000 then "0" ++ toString n
  else toString n

/-- Numeric value of a decimal digit character. -/
def digitVal (c : Char) : Nat := c.toNat - 48

/-- Gregorian leap-year test. -/
def isLeapYear (y : Nat) : Bool :=
  (y % 4 == 0 && y % 100 != 0) || (y % 400 == 0)

/-- Number of days in a month of the Gregorian calendar. -/
def daysInMonth (y m : Nat) : Nat :=
  if m = 2 then (if isLeapYear y then 29 else 28)
  else if m = 4 ∨ m = 6 ∨ m = 9 ∨ m = 11 then 30
  else 31

/-- Parse a clock time `HH:MM`, optionally `:SS`, optionally followed
by fractional-second digits after a dot; returns hours, minutes and
the remaining characters (the seconds cannot influence the UTC month
because offsets are whole minutes). -/
def parseClock : List Char → Option (Nat × Nat × List Char)
  | h1 :: h2 :: ':' :: mi1 :: mi2 :: rest =>
    if h1.isDigit ∧ h2.isDigit ∧ mi1.isDigit ∧ mi2.isDigit then
      let hh := digitVal h1 * 10 + digitVal h2
      let mm := digitVal mi1 * 10 + digitVal mi2
      if hh ≤ 23 ∧ mm ≤ 59 then
        match rest with
        | ':' :: s1 :: s2 :: rest2 =>
          if s1.isDigit ∧ s2.isDigit ∧ digitVal s1 * 10 + digitVal s2 ≤ 59 then
            match rest2 with
            | '.' :: rest3 =>
              if (rest3.takeWhile Char.isDigit).isEmpty then none
              else some (hh, mm, rest3.dropWhile Char.isDigit)
            | _ => some (hh, mm, rest2)
          else none
        | _ => some (hh, mm, rest)
      else none
    else none
  | _ => none

/-- Parse a trailing UTC-offset designator: an absent designator or `Z`
mean the time is already UTC, `+HH:MM` / `-HH:MM` give the signed
offset in minutes; anything else is a parse failure. -/
def parseOffset : List Char → Option Int
  | [] => some 0
  | ['Z'] => some 0
  | sign :: h1 :: h2 :: ':' :: m1 :: m2 :: [] =>
    if (sign = '+' ∨ sign = '-') ∧ h1.isDigit ∧ h2.isDigit ∧ m1.isDigit ∧ m2.isDigit then
      let oh := digitVal h1 * 10 + digitVal h2
      let om := digitVal m1 * 10 + digitVal m2
      if oh ≤ 23 ∧ om ≤ 59 then
        some (if sign = '-' then -((oh * 60 + om : Nat) : Int) else ((oh * 60 + om : Nat) : Int))
      else none
    else none
  | _ => none

/-- Roll the civil year-month of a calendar-valid date when the UTC
conversion crosses a day boundary: `utcMin` is the clock time in
minutes after subtracting the offset, in the open interval
(-1440, 2880), so at most one day is gained or lost. -/
def utcYearMonth (y m d : Nat) (utcMin : Int) : Nat × Nat :=
  if utcMin < 0 then
    if 1 < d then (y, m)
    else if 1 < m then (y, m - 1)
    else (y - 1, 12)
  else if 1440 ≤ utcMin then
    if d < daysInMonth y m then (y, m)
    else if m < 12 then (y, m + 1)
    else (y + 1, 1)
  else (y, m)

/-- Modelled from the spec: the timestamp parsing done by the external
library call `pd.to_datetime(..., errors="coerce", utc=True)` followed
by `strftime`, which is not part of this repository.  Per the spec,
each value is parsed as a timestamp, the moment is converted to UTC,
and invalid/unparseable values become a null result, not an error.
The model accepts ISO-8601 strings of the shape `YYYY-MM-DD`,
optionally followed by `T` or a space and a clock time, optionally
terminated by `Z` or a `+HH:MM`/`-HH:MM` offset, with calendar-valid
fields and the year inside the pandas-representable range 1678..2261;
it yields the year and month of the moment converted to UTC (a missing
offset means the timestamp is already UTC, and the offset can move the
moment across a day, month or year boundary) and rejects everything
else as null. -/
def parseYearMonth (s : String) : Option (Nat × Nat) :=
  match s.toList with
  | y1 :: y2 :: y3 :: y4 :: '-' :: m1 :: m2 :: '-' :: d1 :: d2 :: rest =>
    if y1.isDigit ∧ y2.isDigit ∧ y3.isDigit ∧ y4.isDigit ∧
        m1.isDigit ∧ m2.isDigit ∧ d1.isDigit ∧ d2.isDigit then
      let y := ((digitVal y1 * 10 + digitVal y2) * 10 + digitVal y3) * 10 + digitVal y4
      let m := digitVal m1 * 10 + digitVal m2
      let d := digitVal d1 * 10 + digitVal d2
      if 1678 ≤ y ∧ y ≤ 2261 ∧ 1 ≤ m ∧ m ≤ 12 ∧ 1 ≤ d ∧ d ≤ daysInMonth y m then
        match rest with
        | [] => some (y, m)
        | sep :: t =>
          if sep = 'T' ∨ sep = ' ' then
            match parseClock t with
            | none => none
            | some (hh, mm, rest2) =>
              match parseOffset rest2 with
              | none => none
              | some off => some (utcYearMonth y m d (((hh * 60 + mm : Nat) : Int) - off))
          else none
      else none
    else none
  | _ => none

/-- Modelled from the spec: the "year-month, month-name" label
(`strftime("%Y-%m %B")`) of a timestamp cell; a NaN cell or an
unparseable value yields a null label (`NaT.strftime` propagates NaN). -/
def monthLabel (v : Cell) : Cell :=
  match v with
  | none => none
  | some s =>
    match parseYearMonth s with
    | none => none
    | some (y, m) => some (pad4 y ++ "-" ++ pad2 m ++ " " ++ monthName m)

/-- Source line 368: the columns `add_helper_columns` requires. -/
def helper_required : List String := ["start_time_iso", "end_time_iso"]

/-- Source lines 357-381, `add_helper_columns`: when both ISO timestamp
columns are present, add `start_month` and `end_month` columns holding
each timestamp's month label; otherwise leave the table unchanged. -/
def add_helper_columns (df : DataFrame) : DataFrame :=
  if helper_required.all (fun c => df.cols.contains c) then
    let start_vals := df.rows.map (fun r => monthLabel (getCell df.cols r "start_time_iso"))
    let end_vals := df.rows.map (fun r => monthLabel (getCell df.cols r "end_time_iso"))
    setColumn (setColumn df "start_month" start_vals) "end_month" end_vals
  else df

/-- Source lines 166-214, `read_csv_file` after the `pd.read_csv` call:
the per-file transformation pipeline applied to the parsed table
`df` of the file named `fname` (source tagging, project filtering,
identifying-column removal, helper columns). -/
def read_csv_file (df : DataFrame) (fname : String) (add_source : Bool)
    (remove_identifying_info : Bool) (only_projects exclude_projects : List String) :
    DataFrame :=
  let df1 :=
    if add_source then
      if df.cols.contains "source_file" then
        setColumn df "source_file" (df.rows.map (fun _ => some fname))
      else
        ⟨"source_file" :: df.cols, df.rows.map (fun r => some fname :: r)⟩
    else df
  let df2 :=
    if !only_projects.isEmpty || !exclude_projects.isEmpty then
      filter_projects df1 only_projects exclude_projects
    else df1
  let df3 := if remove_identifying_info then drop_identifying_columns df2 else df2
  add_helper_columns df3

/-- The column-reconciliation mode (`--mode`). -/
inductive Mode where
  | union
  | intersection
  | strict
deriving Repr, DecidableEq

/-- Reindex a table to the given column list (`df[ordered_common]`);
every requested column's value is looked up per row. -/
def selectCols (df : DataFrame) (cs : List String) : DataFrame :=
  ⟨cs, df.rows.map (fun r => cs.map (fun c => getCell df.cols r c))⟩

/-- Source lines 267-299, `apply_column_mode`: align columns across
frames per mode, returning the adjusted frames and an exit code; `none`
models the uncaught `IndexError` from `frames[0]` on an empty list. -/
def apply_column_mode (frames : List DataFrame) (cols_sets : List (List String))
    (mode : Mode) : Option (List DataFrame × Nat) :=
  match mode with
  | .intersection =>
    let common_cols : String → Bool :=
      if cols_sets.isEmpty then fun _ => false
      else fun c => cols_sets.all (fun s => s.contains c)
    match frames with
    | [] => none
    | f0 :: _ =>
      let ordered_common := f0.cols.filter common_cols
      some (frames.map (fun df => selectCols df ordered_common), 0)
  | .strict =>
    match frames with
    | [] => none
    | f0 :: rest =>
      if rest.any (fun df => df.cols ≠ f0.cols) then some (frames, 2)
      else some (frames, 0)
  | .union => some (frames, 0)

/-- Source lines 331-341: the fixed dedupe-key column list. -/
def dedupe_cols : List String :=
  ["start_time", "end_time", "start_time_iso", "end_time_iso", "amount_value",
   "amount_currency", "line_item", "project_id", "organization_id"]

/-- The dedupe key of a row: its values at the nine key columns. -/
def keyOf (cols : List String) (r : Row) : List Cell :=
  dedupe_cols.map (fun c => getCell cols r c)

/-- The scan of `pd.DataFrame.drop_duplicates(subset, keep="first")`:
keep a row when its key has not been seen yet. -/
def dropDupScan (cols : List String) : List Row → List (List Cell) → List Row
  | [], _ => []
  | r :: rs, seen =>
    if keyOf cols r ∈ seen then dropDupScan cols rs seen
    else r :: dropDupScan cols rs (keyOf cols r :: seen)

/-- Source lines 320-353, `drop_duplicate_rows`: when all nine key
columns are present, drop later rows duplicating an earlier row's key
and report the number removed; otherwise return the table unchanged
with zero removals. -/
def drop_duplicate_rows (df : DataFrame) : DataFrame × Nat :=
  if dedupe_cols.any (fun c => !(df.cols.contains c)) then (df, 0)
  else
    let deduped : DataFrame := ⟨df.cols, dropDupScan df.cols df.rows []⟩
    (deduped, df.rows.length - deduped.rows.length)

/-- The column list of `pd.concat(frames, sort=False)`: the union of
all frames' columns in first-seen order across frames in input order. -/
def unionSeenCols (frames : List DataFrame) : List String :=
  frames.foldl (fun acc df => acc ++ df.cols.filter (fun c => !acc.contains c)) []

/-- `pd.concat(frames, ignore_index=True, sort=False)`: rows of all
frames reindexed to the first-seen column union, missing cells NaN;
`none` models the `ValueError` pandas raises on an empty frame list. -/
def concatFrames (frames : List DataFrame) : Option DataFrame :=
  match frames with
  | [] => none
  | _ =>
    let allCols := unionSeenCols frames
    some ⟨allCols,
      (frames.map (fun df => df.rows.map (fun r => allCols.map (fun c => getCell df.cols r c)))).flatten⟩

/-- Source lines 385-445, `merge_csvs`, over already-parsed inputs:
`files` pairs each file's base name with its parsed table.  Each file
goes through `read_csv_file`; columns are aligned per mode; frames are
concatenated and deduplicated.  The result mirrors the Python pair
(merged-or-None, exit code); the outer `Option` is `none` when the
Python call would raise an uncaught exception. -/
def merge_csvs (files : List (String × DataFrame)) (add_source : Bool)
    (remove_identifying_info : Bool) (only_projects exclude_projects : List String)
    (mode : Mode) : Option (Option DataFrame × Nat) :=
  let frames := files.map (fun p =>
    read_csv_file p.2 p.1 add_source remove_identifying_info only_projects exclude_projects)
  let cols_sets := frames.map (fun df => df.cols)
  match apply_column_mode frames cols_sets mode with
  | none => none
  | some (frames2, exit_code) =>
    if exit_code ≠ 0 then some (none, exit_code)
    else
      match concatFrames frames2 with
      | none => none
      | some merged => some (some (drop_duplicate_rows merged).1, 0)

/-- Source lines 146-162, `exclude_output_file`: remove the files that
resolve to the output's resolved path; `resolve` abstracts
`Path.resolve`, returning `none` when it raises.  Any exception inside
the comprehension (the output's or any input's resolution failing)
falls back to the unfiltered list. -/
def exclude_output_file (resolve : String → Option String)
    (files : List String) (output : String) : List String :=
  match resolve output with
  | none => files
  | some out_resolved =>
    if files.all (fun f => (resolve f).isSome) then
      files.filter (fun f => !(resolve f == some out_resolved))
    else files

/-- The deduplication policy in the spec's own words, executable with a
fuel argument that is always large enough (`keepFirstByKey` supplies
the list's length): keep, in scan order, the first row for each
distinct dedupe-key combination and drop every later row with an
identical combination. -/
def keepFirstByKeyFuel (cols : List String) : Nat → List Row → List Row
  | 0, _ => []
  | _, [] => []
  | fuel + 1, r :: rs =>
    r :: keepFirstByKeyFuel cols fuel
      (rs.filter (fun x => decide (keyOf cols x ≠ keyOf cols r)))

/-- The spec-side deduplication: first row per distinct key combination
survives, in scan order. -/
def keepFirstByKey (cols : List String) (rows : List Row) : List Row :=
  keepFirstByKeyFuel cols rows.length rows

/-! Example tables used in the spec's concrete scenarios. -/

/-- Scenario file `a.csv`: columns `x,y`, one row `1,2`. -/
def exampleA : DataFrame := ⟨["x", "y"], [[some "1", some "2"]]⟩

/-- Scenario file `b.csv`: columns `y,z`, one row `3,4`. -/
def exampleB : DataFrame := ⟨["y", "z"], [[some "3", some "4"]]⟩

/-- A parsed single-column table used as a round-trip witness. -/
def exampleE : DataFrame := ⟨["x"], [[some "1"]]⟩

/-- A parsed table carrying both ISO timestamp columns. -/
def exampleTs : DataFrame :=
  ⟨["start_time_iso", "end_time_iso"],
   [[some "2024-03-05T00:00:00Z", some "2024-03-06"]]⟩

/-- A merged table realizing scenario 5: two rows agreeing on all nine
dedupe-key columns and differing in the unrelated column `extra`. -/
def exampleDup : DataFrame :=
  ⟨["start_time", "end_time", "start_time_iso", "end_time_iso", "amount_value",
    "amount_currency", "line_item", "project_id", "organization_id", "extra"],
   [[some "1", some "2", some "1", some "2", some "10", some "USD", some "a",
     some "p1", some "o1", some "x"],
    [some "1", some "2", some "1", some "2", some "10", some "USD", some "a",
     some "p1", some "o1", some "y"]]⟩

/-- A table with a `project_name` column for the filtering claims. -/
def exampleProj : DataFrame :=
  ⟨["project_name", "x"],
   [[some "A", some "1"], [some "B", some "2"], [none, some "3"]]⟩

/-! Basic lemmas about column lookup. -/

/-- A column absent from the list has no index. -/
theorem colIdx_eq_none {cols : List String} {c : String} (h : c ∉ cols) :
    colIdx cols c = none := by
  induction cols with
  | nil => rfl
  | cons a rest ih =>
    have hac : ¬a = c := fun he => h (he ▸ List.mem_cons_self a rest)
    have hc : c ∉ rest := fun hm => h (List.mem_cons_of_mem a hm)
    simp [colIdx, hac, ih hc]

/-- Looking up an absent column yields a blank cell. -/
theorem getCell_not_mem {cols : List String} {c : String} (h : c ∉ cols) (r : Row) :
    getCell cols r c = none := by
  simp [getCell, colIdx_eq_none h]

/-- Looking up the head column of a row yields the head cell. -/
theorem getCell_cons_self (c : String) (cs : List String) (v : Cell) (r : Row) :
    getCell (c :: cs) (v :: r) c = v := by
  simp [getCell, colIdx]

/-- Lookup of a different column skips the head. -/
theorem getCell_cons_ne {a c : String} (h : a ≠ c) (cs : List String) (v : Cell) (r : Row) :
    getCell (a :: cs) (v :: r) c = getCell cs r c := by
  simp only [getCell, colIdx, if_neg h]
  cases colIdx cs c <;> rfl

/-- Reindexing a row by the columns it is aligned with reproduces the
row, provided columns are distinct and the row is full length. -/
theorem map_getCell_self (cols : List String) (r : Row)
    (hnd : cols.Nodup) (hlen : r.length = cols.length) :
    cols.map (getCell cols r) = r := by
  induction cols generalizing r with
  | nil =>
    cases r with
    | nil => rfl
    | cons v vs => simp at hlen
  | cons c cs ih =>
    cases r with
    | nil => simp at hlen
    | cons v vs =>
      have hnotin : c ∉ cs := (List.nodup_cons.mp hnd).1
      have hnd' : cs.Nodup := (List.nodup_cons.mp hnd).2
      have hlen' : vs.length = cs.length := by simpa using hlen
      have htail : ∀ c2 ∈ cs, getCell (c :: cs) (v :: vs) c2 = getCell cs vs c2 := by
        intro c2 hc2
        exact getCell_cons_ne (fun he => hnotin (by rw [he]; exact hc2)) cs v vs
      calc (c :: cs).map (getCell (c :: cs) (v :: vs))
          = getCell (c :: cs) (v :: vs) c :: cs.map (getCell (c :: cs) (v :: vs)) := rfl
        _ = v :: cs.map (getCell cs vs) := by
            rw [getCell_cons_self, List.map_congr_left htail]
        _ = v :: vs := by rw [ih vs hnd' hlen']

/-- Looking a column up in a row built by mapping a function over the
column list evaluates that function at the column. -/
theorem getCell_map (cs : List String) (f : String → Cell) {c : String} (h : c ∈ cs) :
    getCell cs (cs.map f) c = f c := by
  induction cs with
  | nil => cases h
  | cons a rest ih =>
    by_cases hac : a = c
    · subst hac
      exact getCell_cons_self a rest (f a) (rest.map f)
    · have hc : c ∈ rest := by
        rcases List.mem_cons.mp h with h1 | h2
        · exact absurd h1.symm hac
        · exact h2
      rw [List.map_cons, getCell_cons_ne hac, ih hc]

/-- Membership in the first-seen column union of a frame list. -/
theorem mem_unionSeenCols_aux (frames : List DataFrame) (acc : List String) (c : String) :
    (c ∈ frames.foldl
        (fun acc df => acc ++ df.cols.filter (fun c => !acc.contains c)) acc) ↔
      c ∈ acc ∨ ∃ df ∈ frames, c ∈ df.cols := by
  induction frames generalizing acc with
  | nil => simp
  | cons df rest ih =>
    rw [List.foldl_cons, ih]
    constructor
    · rintro (hstep | hrest)
      · rcases List.mem_append.mp hstep with hacc | hfil
        · exact Or.inl hacc
        · exact Or.inr ⟨df, List.mem_cons_self df rest, (List.mem_filter.mp hfil).1⟩
      · rcases hrest with ⟨df2, hdf2, hc2⟩
        exact Or.inr ⟨df2, List.mem_cons_of_mem df hdf2, hc2⟩
    · rintro (hacc | ⟨df2, hdf2, hc2⟩)
      · exact Or.inl (List.mem_append.mpr (Or.inl hacc))
      · rcases List.mem_cons.mp hdf2 with he | hm
        · subst he
          by_cases hin : c ∈ acc
          · exact Or.inl (List.mem_append.mpr (Or.inl hin))
          · refine Or.inl (List.mem_append.mpr (Or.inr ?_))
            refine List.mem_filter.mpr ⟨hc2, ?_⟩
            simp [hin]
        · exact Or.inr ⟨df2, hm, hc2⟩

/-- Membership in `unionSeenCols`: a column occurs iff some frame has it. -/
theorem mem_unionSeenCols (frames : List DataFrame) (c : String) :
    c ∈ unionSeenCols frames ↔ ∃ df ∈ frames, c ∈ df.cols := by
  rw [unionSeenCols, mem_unionSeenCols_aux]
  simp

/-! Deduplication lemmas. -/

/-- Unfolding equation of the fuelled keep-first policy on a cons. -/
theorem keepFirstByKeyFuel_cons (cols : List String) (f : Nat) (r : Row) (rs : List Row) :
    keepFirstByKeyFuel cols (f + 1) (r :: rs) =
      r :: keepFirstByKeyFuel cols f
        (rs.filter (fun x => decide (keyOf cols x ≠ keyOf cols r))) := rfl

/-- Unfolding of the deduplicator when a key column is missing. -/
theorem drop_duplicate_rows_of_missing (df : DataFrame)
    (h : (dedupe_cols.any (fun c => !(df.cols.contains c))) = true) :
    drop_duplicate_rows df = (df, 0) := by
  unfold drop_duplicate_rows
  rw [h]
  rfl

/-- Unfolding of the deduplicator when all key columns are present. -/
theorem drop_duplicate_rows_of_present (df : DataFrame)
    (h : (dedupe_cols.any (fun c => !(df.cols.contains c))) = false) :
    drop_duplicate_rows df =
      (⟨df.cols, dropDupScan df.cols df.rows []⟩,
       df.rows.length - (dropDupScan df.cols df.rows []).length) := by
  unfold drop_duplicate_rows
  rw [h]
  rfl

/-- The pandas-style scan agrees with the spec's keep-first policy,
for any fuel at least the list length. -/
theorem dropDupScan_eq_keepFirstFuel (cols : List String) (rows : List Row) :
    ∀ (seen : List (List Cell)) (fuel : Nat), rows.length ≤ fuel →
      dropDupScan cols rows seen =
        keepFirstByKeyFuel cols fuel
          (rows.filter (fun r => decide (keyOf cols r ∉ seen))) := by
  induction rows with
  | nil =>
    intro seen fuel _
    cases fuel <;> rfl
  | cons r rs ih =>
    intro seen fuel hfuel
    cases fuel with
    | zero => simp at hfuel
    | succ f =>
      have hf : rs.length ≤ f := by simpa using hfuel
      by_cases hk : keyOf cols r ∈ seen
      · have hdec : (decide (keyOf cols r ∉ seen)) = false := by simp [hk]
        simp only [dropDupScan, if_pos hk, List.filter_cons, hdec, cond_false]
        exact ih seen (f + 1) (Nat.le_succ_of_le hf)
      · have hdec : (decide (keyOf cols r ∉ seen)) = true := by simp [hk]
        simp only [dropDupScan, if_neg hk, List.filter_cons, hdec, cond_true, if_true]
        rw [keepFirstByKeyFuel_cons, ih (keyOf cols r :: seen) f hf]
        congr 1
        rw [List.filter_filter]
        congr 1
        apply List.filter_congr
        intro x _
        have hiff : (keyOf cols x ∉ keyOf cols r :: seen) ↔
            (keyOf cols x ≠ keyOf cols r ∧ keyOf cols x ∉ seen) := by
          simp only [List.mem_cons, not_or]
        rw [← Bool.decide_and]
        exact decide_eq_decide.mpr hiff

/-- Starting from an empty seen-set, the pandas-style scan is exactly
the spec's keep-first-per-key policy. -/
theorem dropDupScan_eq_keepFirst (cols : List String) (rows : List Row) :
    dropDupScan cols rows [] = keepFirstByKey cols rows := by
  rw [dropDupScan_eq_keepFirstFuel cols rows [] rows.length le_rfl, keepFirstByKey]
  congr 1
  apply List.filter_eq_self.mpr
  intro a _
  simp

/-- The scan's output has pairwise-distinct keys, none of them in the
seen-set it started from. -/
theorem dropDupScan_keys (cols : List String) (rows : List Row) :
    ∀ seen, ((dropDupScan cols rows seen).map (keyOf cols)).Nodup ∧
      ∀ k ∈ (dropDupScan cols rows seen).map (keyOf cols), k ∉ seen := by
  induction rows with
  | nil =>
    intro seen
    exact ⟨by simp [dropDupScan], by simp [dropDupScan]⟩
  | cons r rs ih =>
    intro seen
    by_cases hk : keyOf cols r ∈ seen
    · simpa only [dropDupScan, if_pos hk] using ih seen
    · have h2 := ih (keyOf cols r :: seen)
      constructor
      · simp only [dropDupScan, if_neg hk, List.map_cons, List.nodup_cons]
        exact ⟨fun hmem => (h2.2 _ hmem) (List.mem_cons_self _ _), h2.1⟩
      · intro k hkm
        simp only [dropDupScan, if_neg hk, List.map_cons, List.mem_cons] at hkm
        rcases hkm with he | hm
        · rw [he]; exact hk
        · exact fun hs => (h2.2 k hm) (List.mem_cons_of_mem _ hs)

/-- A scan over rows whose keys are already pairwise distinct and
disjoint from the seen-set keeps every row. -/
theorem dropDupScan_of_nodup (cols : List String) (rows : List Row) :
    ∀ seen, ((rows.map (keyOf cols)).Nodup) →
      (∀ k ∈ rows.map (keyOf cols), k ∉ seen) →
      dropDupScan cols rows seen = rows := by
  induction rows with
  | nil => intro seen _ _; rfl
  | cons r rs ih =>
    intro seen hnd hdisj
    have hk : keyOf cols r ∉ seen := hdisj _ (by simp)
    have hnd2 : (∀ x ∈ rs, ¬keyOf cols x = keyOf cols r) ∧
        ((rs.map (keyOf cols)).Nodup) := by simpa using hnd
    simp only [dropDupScan, if_neg hk]
    congr 1
    apply ih (keyOf cols r :: seen) hnd2.2
    intro k hkm
    simp only [List.mem_cons, not_or]
    rcases List.mem_map.mp hkm with ⟨x, hx, hkx⟩
    constructor
    · intro he
      exact hnd2.1 x hx (hkx.trans he)
    · exact hdisj k (List.mem_cons_of_mem _ hkm)

/-- C2: whenever all nine dedupe-key columns are present, the
deduplicator keeps, in scan order, the first row for each distinct
combination of key-column values, drops every later row with an
identical combination, and reports the number removed; if any key
column is missing it returns the table unchanged with zero removals. -/
theorem drop_duplicate_rows_spec (df : DataFrame) :
    ((∀ c ∈ dedupe_cols, c ∈ df.cols) →
      drop_duplicate_rows df =
        (⟨df.cols, keepFirstByKey df.cols df.rows⟩,
         df.rows.length - (keepFirstByKey df.cols df.rows).length)) ∧
    ((∃ c ∈ dedupe_cols, c ∉ df.cols) → drop_duplicate_rows df = (df, 0)) := by
  constructor
  · intro hall
    have hguard : (dedupe_cols.any (fun c => !(df.cols.contains c))) = false := by
      simp only [List.any_eq_false]
      intro c hc
      simp [hall c hc]
    rw [drop_duplicate_rows_of_present df hguard, dropDupScan_eq_keepFirst]
  · rintro ⟨c, hc, hnc⟩
    have hguard : (dedupe_cols.any (fun c => !(df.cols.contains c))) = true :=
      List.any_eq_true.mpr ⟨c, hc, by simp [hnc]⟩
    exact drop_duplicate_rows_of_missing df hguard

/-- Witness: scenario 5, two rows agreeing on all nine key columns and
differing in `extra`; only the first survives and one removal is
reported. -/
theorem drop_duplicate_rows_witness :
    drop_duplicate_rows exampleDup =
      (⟨exampleDup.cols,
        [[some "1", some "2", some "1", some "2", some "10", some "USD", some "a",
          some "p1", some "o1", some "x"]]⟩, 1) :=
  ((drop_duplicate_rows_spec exampleDup).1 (by decide)).trans (by decide)

/-- C8: deduplication is idempotent: applied to its own output it
returns that output unchanged and removes zero rows. -/
theorem drop_duplicate_rows_idempotent (df : DataFrame) :
    drop_duplicate_rows (drop_duplicate_rows df).1 = ((drop_duplicate_rows df).1, 0) := by
  by_cases hg : (dedupe_cols.any (fun c => !(df.cols.contains c))) = true
  · rw [drop_duplicate_rows_of_missing df hg]
    exact drop_duplicate_rows_of_missing df hg
  · have hg' : (dedupe_cols.any (fun c => !(df.cols.contains c))) = false :=
      eq_false_of_ne_true hg
    have hsame : dropDupScan df.cols (dropDupScan df.cols df.rows []) [] =
        dropDupScan df.cols df.rows [] := by
      apply dropDupScan_of_nodup df.cols (dropDupScan df.cols df.rows []) []
        ((dropDupScan_keys df.cols df.rows []).1)
      intro k _
      simp
    rw [drop_duplicate_rows_of_present df hg']
    show drop_duplicate_rows (⟨df.cols, dropDupScan df.cols df.rows []⟩ : DataFrame) =
      ((⟨df.cols, dropDupScan df.cols df.rows []⟩ : DataFrame), 0)
    rw [drop_duplicate_rows_of_present ⟨df.cols, dropDupScan df.cols df.rows []⟩ hg']
    simp [hsame]

/-! Column reconciliation claims. -/

/-- C1: in union mode, the merged output's column set is the union of
all tables' columns ordered by first-seen order across files in input
order; every row coming from a table that lacks one of those columns
carries a blank value there; and scenario 1 (a.csv with `x,y` row
`1,2`, b.csv with `y,z` row `3,4`, add-source on) yields columns
`source_file,x,y,z` with the two stated rows. -/
theorem union_merge_spec (frames : List DataFrame) (hne : frames ≠ []) :
    (∃ merged, concatFrames frames = some merged ∧
      merged.cols = unionSeenCols frames ∧
      (∀ c, c ∈ merged.cols ↔ ∃ df ∈ frames, c ∈ df.cols) ∧
      (∀ df ∈ frames, ∀ r ∈ df.rows,
        (merged.cols.map (fun c => getCell df.cols r c)) ∈ merged.rows ∧
        (∀ c, c ∈ merged.cols → c ∉ df.cols →
          getCell merged.cols (merged.cols.map (fun c2 => getCell df.cols r c2)) c = none))) ∧
    merge_csvs [("a.csv", exampleA), ("b.csv", exampleB)] true false [] [] .union =
      some (some ⟨["source_file", "x", "y", "z"],
        [[some "a.csv", some "1", some "2", none],
         [some "b.csv", none, some "3", some "4"]]⟩, 0) := by
  constructor
  · cases frames with
    | nil => exact absurd rfl hne
    | cons f fs =>
      refine ⟨_, rfl, rfl, ?_, ?_⟩
      · intro c
        exact mem_unionSeenCols (f :: fs) c
      · intro df hdf r hr
        constructor
        · apply List.mem_flatten.mpr
          refine ⟨df.rows.map
            (fun r2 => (unionSeenCols (f :: fs)).map (fun c => getCell df.cols r2 c)), ?_, ?_⟩
          · exact List.mem_map.mpr ⟨df, hdf, rfl⟩
          · exact List.mem_map.mpr ⟨r, hr, rfl⟩
        · intro c hc hnc
          rw [getCell_map _ _ hc, getCell_not_mem hnc r]
  · decide

/-- Witness for the union claim: the scenario-1 equation, obtained by
instantiating the union theorem at a non-empty frame list. -/
theorem union_merge_witness :
    merge_csvs [("a.csv", exampleA), ("b.csv", exampleB)] true false [] [] .union =
      some (some ⟨["source_file", "x", "y", "z"],
        [[some "a.csv", some "1", some "2", none],
         [some "b.csv", none, some "3", some "4"]]⟩, 0) :=
  (union_merge_spec [exampleA] (by decide)).2

/-- C5: in intersection mode every output table's column list is the
first table's columns filtered to those common to all tables (so the
intersection, in first-table order, with all other columns dropped),
and scenario 2 yields the single column `y` with rows `2` and `3`. -/
theorem intersection_merge_spec (f0 : DataFrame) (rest : List DataFrame) :
    (∃ frames2,
      apply_column_mode (f0 :: rest) ((f0 :: rest).map (fun df => df.cols)) .intersection =
        some (frames2, 0) ∧
      frames2 = (f0 :: rest).map (fun df => selectCols df
        (f0.cols.filter (fun c =>
          ((f0 :: rest).map (fun df2 => df2.cols)).all (fun s => s.contains c)))) ∧
      (∀ df2 ∈ frames2, df2.cols =
        f0.cols.filter (fun c =>
          ((f0 :: rest).map (fun df2 => df2.cols)).all (fun s => s.contains c))) ∧
      (∀ c, (c ∈ f0.cols.filter (fun c =>
          ((f0 :: rest).map (fun df2 => df2.cols)).all (fun s => s.contains c))) ↔
        ∀ df ∈ f0 :: rest, c ∈ df.cols)) ∧
    merge_csvs [("a.csv", exampleA), ("b.csv", exampleB)] false false [] [] .intersection =
      some (some ⟨["y"], [[some "2"], [some "3"]]⟩, 0) := by
  constructor
  · refine ⟨_, rfl, rfl, ?_, ?_⟩
    · intro df2 hdf2
      rcases List.mem_map.mp hdf2 with ⟨df, hdf, rfl⟩
      rfl
    · intro c
      rw [List.mem_filter]
      constructor
      · rintro ⟨hf0, hall⟩ df hdf
        have hdfc := List.all_eq_true.mp hall df.cols (List.mem_map.mpr ⟨df, hdf, rfl⟩)
        simpa using hdfc
      · intro hall
        refine ⟨hall f0 (List.mem_cons_self f0 rest), ?_⟩
        apply List.all_eq_true.mpr
        intro s hs
        rcases List.mem_map.mp hs with ⟨df, hdf, rfl⟩
        simpa using hall df hdf
  · decide

/-- Witness for the intersection claim: the scenario-2 equation,
obtained by instantiating the intersection theorem. -/
theorem intersection_merge_witness :
    merge_csvs [("a.csv", exampleA), ("b.csv", exampleB)] false false [] [] .intersection =
      some (some ⟨["y"], [[some "2"], [some "3"]]⟩, 0) :=
  (intersection_merge_spec exampleA [exampleB]).2

/-- Strict mode with a real mismatch returns the original frames with
exit code 2. -/
theorem apply_column_mode_strict_mismatch (f0 : DataFrame) (rest : List DataFrame)
    (cols_sets : List (List String))
    (h : (rest.any (fun df => df.cols ≠ f0.cols)) = true) :
    apply_column_mode (f0 :: rest) cols_sets .strict = some (f0 :: rest, 2) := by
  simp only [apply_column_mode, h, if_true]

/-- C4: in strict mode, if any transformed table's column list
(including order) differs from the first transformed table's, the merge
produces no table and the exit status is 2 (the caller then returns
that status without writing any output). -/
theorem strict_mismatch_spec (f : String × DataFrame) (fs : List (String × DataFrame))
    (add_source rii : Bool) (only exclude : List String)
    (hdiff : ∃ p ∈ fs,
      (read_csv_file p.2 p.1 add_source rii only exclude).cols ≠
      (read_csv_file f.2 f.1 add_source rii only exclude).cols) :
    merge_csvs (f :: fs) add_source rii only exclude .strict = some (none, 2) := by
  have hany : ((fs.map (fun p => read_csv_file p.2 p.1 add_source rii only exclude)).any
      (fun df => df.cols ≠ (read_csv_file f.2 f.1 add_source rii only exclude).cols)) = true := by
    apply List.any_eq_true.mpr
    rcases hdiff with ⟨p, hp, hne⟩
    exact ⟨_, List.mem_map.mpr ⟨p, hp, rfl⟩, by simpa using hne⟩
  unfold merge_csvs
  simp only [List.map_cons]
  rw [apply_column_mode_strict_mismatch _ _ _ hany]
  rfl

/-- Witness for the strict claim: scenario 3 — the a.csv/b.csv pair in
strict mode gives no merged table and exit status 2. -/
theorem strict_mismatch_witness :
    merge_csvs [("a.csv", exampleA), ("b.csv", exampleB)] false false [] [] .strict =
      some (none, 2) :=
  strict_mismatch_spec ("a.csv", exampleA) [("b.csv", exampleB)] false false [] []
    (by decide)

/-- C10: calling merge_csvs with an empty file list never returns a
(table, exit-code) pair: every mode ends in an uncaught exception
(modelled as `none`) — intersection and strict index the first element
of an empty frame list, union concatenates an empty list. -/
theorem merge_csvs_empty_raises (add_source rii : Bool) (only exclude : List String)
    (mode : Mode) :
    merge_csvs [] add_source rii only exclude mode = none := by
  cases mode <;> rfl

/-- Witness for the empty-input claim, at concrete arguments. -/
theorem merge_csvs_empty_witness :
    merge_csvs [] false false [] [] .union = none ∧
    merge_csvs [] false false [] [] .intersection = none ∧
    merge_csvs [] false false [] [] .strict = none :=
  ⟨merge_csvs_empty_raises false false [] [] .union,
   merge_csvs_empty_raises false false [] [] .intersection,
   merge_csvs_empty_raises false false [] [] .strict⟩

/-! Round-trip claims. -/

/-- When one of the ISO timestamp columns is absent, the helper-column
step leaves the table unchanged. -/
theorem add_helper_columns_of_missing (df : DataFrame)
    (hmiss : "start_time_iso" ∉ df.cols ∨ "end_time_iso" ∉ df.cols) :
    add_helper_columns df = df := by
  have h : (helper_required.all (fun c => df.cols.contains c)) = false := by
    rcases hmiss with hm | hm
    · exact List.all_eq_false.mpr ⟨"start_time_iso", by decide, by simp [hm]⟩
    · exact List.all_eq_false.mpr ⟨"end_time_iso", by decide, by simp [hm]⟩
  unfold add_helper_columns
  rw [h]
  simp

/-- With no source tagging, no filters and no identifying-info removal,
the per-file transformation reduces to the helper-column step, which is
skipped when an ISO timestamp column is absent. -/
theorem read_csv_file_plain (df : DataFrame) (fname : String)
    (hmiss : "start_time_iso" ∉ df.cols ∨ "end_time_iso" ∉ df.cols) :
    read_csv_file df fname false false [] [] = df := by
  show add_helper_columns df = df
  exact add_helper_columns_of_missing df hmiss

/-- A missing ISO timestamp column is also a missing dedupe-key column. -/
theorem dedupe_guard_of_missing (df : DataFrame)
    (hmiss : "start_time_iso" ∉ df.cols ∨ "end_time_iso" ∉ df.cols) :
    (dedupe_cols.any (fun c => !(df.cols.contains c))) = true := by
  rcases hmiss with hm | hm
  · exact List.any_eq_true.mpr ⟨"start_time_iso", by decide, by simp [hm]⟩
  · exact List.any_eq_true.mpr ⟨"end_time_iso", by decide, by simp [hm]⟩

/-- Concatenating a single well-formed frame reproduces it. -/
theorem concatFrames_single (df : DataFrame) (hnd : df.cols.Nodup)
    (hlen : ∀ r ∈ df.rows, r.length = df.cols.length) :
    concatFrames [df] = some df := by
  have hcols : unionSeenCols [df] = df.cols := by
    unfold unionSeenCols
    simp
  have hrow : ∀ r ∈ df.rows,
      (unionSeenCols [df]).map (fun c => getCell df.cols r c) = r := by
    intro r hr
    rw [hcols]
    exact map_getCell_self df.cols r hnd (hlen r hr)
  show some (⟨unionSeenCols [df],
    ([df].map (fun df2 => df2.rows.map
      (fun r => (unionSeenCols [df]).map (fun c => getCell df2.cols r c)))).flatten⟩ : DataFrame)
    = some df
  have hrows : ([df].map (fun df2 => df2.rows.map
      (fun r => (unionSeenCols [df]).map (fun c => getCell df2.cols r c)))).flatten
      = df.rows := by
    simp only [List.map_cons, List.map_nil, List.flatten_cons, List.flatten_nil,
      List.append_nil]
    calc df.rows.map (fun r => (unionSeenCols [df]).map (fun c => getCell df.cols r c))
        = df.rows.map (fun r => r) := List.map_congr_left hrow
      _ = df.rows := by simp
  rw [hrows, hcols]

/-- Counterexample to the round-trip claim as stated: a parseable file
whose table carries both ISO timestamp columns gains the two helper
columns, so merging it alone in union mode with everything off does not
reproduce the parsed table. -/
theorem single_file_roundtrip_cex :
    merge_csvs [("c.csv", exampleTs)] false false [] [] .union ≠
      some (some exampleTs, 0) := by decide

/-- C3 (amended): for every well-formed parsed table lacking at least
one of the ISO timestamp columns, merging just that file in union mode
with no source tagging, no project filters and identifying-info removal
off yields exactly the parsed table with exit code 0. -/
theorem single_file_roundtrip (df : DataFrame) (fname : String)
    (hnd : df.cols.Nodup) (hlen : ∀ r ∈ df.rows, r.length = df.cols.length)
    (hmiss : "start_time_iso" ∉ df.cols ∨ "end_time_iso" ∉ df.cols) :
    merge_csvs [(fname, df)] false false [] [] .union = some (some df, 0) := by
  have hread : read_csv_file df fname false false [] [] = df :=
    read_csv_file_plain df fname hmiss
  have hconcat := concatFrames_single df hnd hlen
  have hdupe := drop_duplicate_rows_of_missing df (dedupe_guard_of_missing df hmiss)
  unfold merge_csvs
  simp only [List.map_cons, List.map_nil, hread]
  show (match concatFrames [df] with
    | none => none
    | some merged => some (some (drop_duplicate_rows merged).1, 0)) = some (some df, 0)
  rw [hconcat]
  show some (some (drop_duplicate_rows df).1, 0) = some (some df, 0)
  rw [hdupe]

/-- Witness for the amended round-trip at a concrete single-column file. -/
theorem single_file_roundtrip_witness :
    merge_csvs [("e.csv", exampleE)] false false [] [] .union = some (some exampleE, 0) :=
  single_file_roundtrip exampleE "e.csv" (by decide) (by decide) (by decide)

/-! Project filtering (C6). -/

/-- C6: with a `project_name` column present, a non-empty only-set
keeps exactly the rows whose value is a member of that set, ignoring
the exclude-set entirely (only-wins precedence, visible because the
exclude-set is arbitrary here); with an empty only-set and a non-empty
exclude-set it keeps exactly the rows whose value is not a member;
without the column, filtering returns the table unchanged; and a cell
is a member exactly when it holds a string belonging to the set (a
blank cell never is). -/
theorem filter_projects_spec (df : DataFrame) (only exclude : List String) :
    (("project_name" ∈ df.cols ∧ only ≠ []) →
      filter_projects df only exclude =
        ⟨df.cols, df.rows.filter
          (fun r => isinCell only (getCell df.cols r "project_name"))⟩) ∧
    (("project_name" ∈ df.cols ∧ only = [] ∧ exclude ≠ []) →
      filter_projects df only exclude =
        ⟨df.cols, df.rows.filter
          (fun r => !isinCell exclude (getCell df.cols r "project_name"))⟩) ∧
    ("project_name" ∉ df.cols → filter_projects df only exclude = df) ∧
    (∀ v : Cell, isinCell only v = true ↔ ∃ s, v = some s ∧ s ∈ only) := by
  refine ⟨?_, ?_, ?_, ?_⟩
  · rintro ⟨hcol, honly⟩
    have h1 : only.isEmpty = false := by
      cases only with
      | nil => exact absurd rfl honly
      | cons a t => rfl
    have h2 : df.cols.contains "project_name" = true := by simpa using hcol
    simp [filter_projects, h1, h2]
    exact fun h => absurd hcol h
  · rintro ⟨hcol, honly, hexcl⟩
    have h1 : exclude.isEmpty = false := by
      cases exclude with
      | nil => exact absurd rfl hexcl
      | cons a t => rfl
    have h2 : df.cols.contains "project_name" = true := by simpa using hcol
    subst honly
    simp [filter_projects, h1, h2]
    exact fun h => absurd hcol h
  · intro hcol
    have h2 : df.cols.contains "project_name" = false := by simpa using hcol
    by_cases hb : (only.isEmpty && exclude.isEmpty) = true
    · simp [filter_projects, hb]
    · have hb' : (only.isEmpty && exclude.isEmpty) = false := eq_false_of_ne_true hb
      simp [filter_projects, hb', h2]
      exact fun h => absurd h hcol
  · intro v
    cases v with
    | none => simp [isinCell]
    | some x => simp [isinCell]

/-- Witness: only-set `A` with a simultaneously non-empty exclude-set
keeps exactly the `A` row of the example table. -/
theorem filter_projects_witness :
    filter_projects exampleProj ["A"] ["B"] =
      ⟨["project_name", "x"], [[some "A", some "1"]]⟩ :=
  ((filter_projects_spec exampleProj ["A"] ["B"]).1 ⟨by decide, by decide⟩).trans
    (by decide)

/-! Helper-column computation (C7). -/

/-- Zipping a list with its own image collapses to a single map. -/
theorem zip_self_map {α β : Type} (l : List α) (f : α → β) :
    l.zip (l.map f) = l.map (fun a => (a, f a)) := by
  induction l with
  | nil => rfl
  | cons a t ih => simp [ih]

/-- Zipping two images of the same list collapses to a single map. -/
theorem map_zip_map {α β γ : Type} (l : List α) (f : α → β) (g : α → γ) :
    (l.map f).zip (l.map g) = l.map (fun a => (f a, g a)) := by
  induction l with
  | nil => rfl
  | cons a t ih => simp [ih]

/-- Assigning a fresh column appends it after the existing columns. -/
theorem setColumn_append (df : DataFrame) (name : String) (vals : List Cell)
    (h : name ∉ df.cols) :
    setColumn df name vals =
      ⟨df.cols ++ [name], (df.rows.zip vals).map (fun p => p.1 ++ [p.2])⟩ := by
  unfold setColumn
  rw [colIdx_eq_none h]

/-- C7: with both ISO timestamp columns present (and the month columns
not already there), the step appends `start_month` and `end_month`
holding the month label of each row's start and end timestamps
interpreted in UTC, the label of a blank or unparseable timestamp
being blank rather than an error; with either source column absent the
table is returned unchanged; the label has the "year-month month-name"
shape; and a timestamp carrying a UTC offset is labelled with the
month of the converted UTC moment, also when the conversion crosses a
month or year boundary. -/
theorem add_helper_columns_spec (df : DataFrame) :
    (("start_time_iso" ∈ df.cols ∧ "end_time_iso" ∈ df.cols ∧
      "start_month" ∉ df.cols ∧ "end_month" ∉ df.cols) →
      (add_helper_columns df).cols = df.cols ++ ["start_month", "end_month"] ∧
      (add_helper_columns df).rows = df.rows.map (fun r =>
        r ++ [monthLabel (getCell df.cols r "start_time_iso"),
              monthLabel (getCell df.cols r "end_time_iso")])) ∧
    (("start_time_iso" ∉ df.cols ∨ "end_time_iso" ∉ df.cols) →
      add_helper_columns df = df) ∧
    monthLabel none = none ∧
    (∀ s, parseYearMonth s = none → monthLabel (some s) = none) ∧
    monthLabel (some "2024-03-05T00:00:00+00:00") = some "2024-03 March" ∧
    monthLabel (some "2024-03-31T23:00:00-05:00") = some "2024-04 April" ∧
    monthLabel (some "2024-01-01T00:30:00+01:00") = some "2023-12 December" := by
  refine ⟨?_, ?_, rfl, ?_, by decide, by decide, by decide⟩
  · rintro ⟨h1, h2, h3, h4⟩
    have hall : (helper_required.all (fun c => df.cols.contains c)) = true := by
      apply List.all_eq_true.mpr
      intro c hc
      rcases (by simpa [helper_required] using hc : c = "start_time_iso" ∨ c = "end_time_iso")
        with rfl | rfl
      · simpa using h1
      · simpa using h2
    have h4' : "end_month" ∉ df.cols ++ ["start_month"] := by
      intro hmem
      rcases List.mem_append.mp hmem with hx | hx
      · exact h4 hx
      · simp at hx
    have hres : add_helper_columns df =
        ⟨df.cols ++ ["start_month", "end_month"], df.rows.map (fun r =>
          r ++ [monthLabel (getCell df.cols r "start_time_iso"),
                monthLabel (getCell df.cols r "end_time_iso")])⟩ := by
      unfold add_helper_columns
      rw [hall]
      simp only [if_true]
      rw [setColumn_append df "start_month" _ h3, zip_self_map, List.map_map]
      rw [setColumn_append ⟨df.cols ++ ["start_month"], _⟩ "end_month" _ h4']
      simp only [List.map_map, map_zip_map]
      simp [Function.comp, List.append_assoc]
    exact ⟨by rw [hres], by rw [hres]⟩
  · exact add_helper_columns_of_missing df
  · intro s hs
    simp [monthLabel, hs]

/-- Witness: the helper step on the example timestamp table appends the
two month columns with the computed labels. -/
theorem add_helper_columns_witness :
    (add_helper_columns exampleTs).cols = exampleTs.cols ++ ["start_month", "end_month"] ∧
    (add_helper_columns exampleTs).rows = exampleTs.rows.map (fun r =>
      r ++ [monthLabel (getCell exampleTs.cols r "start_time_iso"),
            monthLabel (getCell exampleTs.cols r "end_time_iso")]) :=
  (add_helper_columns_spec exampleTs).1 ⟨by decide, by decide, by decide, by decide⟩

/-! Output-file exclusion (C9). -/

/-- C9: when the output path and every input path resolve, the files
resolving to the output's resolved path are removed from the input
list, so no surviving input resolves to the output; when resolving the
output or any input fails, the list is passed through unchanged. -/
theorem exclude_output_file_spec (resolve : String → Option String)
    (files : List String) (output : String) :
    ((∃ out, resolve output = some out) → (∀ f ∈ files, (resolve f).isSome = true) →
      (exclude_output_file resolve files output =
        files.filter (fun f => !(resolve f == resolve output)) ∧
       ∀ f ∈ exclude_output_file resolve files output, resolve f ≠ resolve output)) ∧
    (resolve output = none → exclude_output_file resolve files output = files) ∧
    ((∃ f ∈ files, resolve f = none) → exclude_output_file resolve files output = files) := by
  refine ⟨?_, ?_, ?_⟩
  · rintro ⟨out, hout⟩ hallsome
    have hall : (files.all (fun f => (resolve f).isSome)) = true :=
      List.all_eq_true.mpr hallsome
    have heq : exclude_output_file resolve files output =
        files.filter (fun f => !(resolve f == resolve output)) := by
      unfold exclude_output_file
      rw [hout, hall]
      simp
    refine ⟨heq, ?_⟩
    intro f hf
    rw [heq] at hf
    have hpred := (List.mem_filter.mp hf).2
    simpa using hpred
  · intro hout
    unfold exclude_output_file
    rw [hout]
  · rintro ⟨f, hf, hfnone⟩
    cases hout : resolve output with
    | none =>
      unfold exclude_output_file
      rw [hout]
    | some out =>
      have hall : (files.all (fun f => (resolve f).isSome)) = false :=
        List.all_eq_false.mpr ⟨f, hf, by simp [hfnone]⟩
      unfold exclude_output_file
      rw [hout, hall]
      simp

/-- Witness: with resolution the identity, the output path is removed
from the discovered inputs. -/
theorem exclude_output_file_witness :
    exclude_output_file (fun s => some s) ["a.csv", "out.csv"] "out.csv" = ["a.csv"] :=
  (((exclude_output_file_spec (fun s => some s) ["a.csv", "out.csv"] "out.csv").1
    ⟨"out.csv", rfl⟩ (by decide)).1).trans (by decide)

end MergeFiles
